import Mathlib

/-!
Shallow embedding of the N2M-RSI self-prompt divergence experiment
(source: 実証.py) and verification of its specification claims.

The inference backend (`llama_cpp.Llama`) is an external collaborator: it is
modelled as a black-box function `Engine` receiving the call index, the
prompt, the generation window and the stop markers.  The deflate compressor
used by `omega_compress` is likewise external library code (`zlib`); its
output length is a parameter `compressLen` of the embedding.  Everything
else — the loop controller, the whitespace trimming, the word counting, the
metric derivations and the termination policy — is translated directly from
the source.
-/

set_option maxRecDepth 4000

namespace N2MRSI

/-! ## Python string primitives used by the source -/

/-- ASCII whitespace as recognised by Python's `str.split` / `str.strip`
(space, tab, newline, carriage return, vertical tab, form feed). -/
def isPySpace (c : Char) : Bool :=
  c = ' ' || c = '\t' || c = '\n' || c = '\r' || c = Char.ofNat 11 || c = Char.ofNat 12

/-- Python `str.lstrip()`: drop leading whitespace. -/
def pyLstrip (s : String) : String :=
  ⟨s.data.dropWhile (fun c => isPySpace c)⟩

/-- Python `str.strip()`: drop leading and trailing whitespace. -/
def pyStrip (s : String) : String :=
  ⟨((s.data.dropWhile (fun c => isPySpace c)).reverse.dropWhile (fun c => isPySpace c)).reverse⟩

/-- Helper for `wordCount`: scan the characters, counting transitions from
whitespace (or start) into a word. -/
def countWordsAux : List Char → Bool → Nat → Nat
  | [], _, n => n
  | c :: cs, inWord, n =>
    if isPySpace c then countWordsAux cs false n
    else countWordsAux cs true (if inWord then n else n + 1)

/-- Number of whitespace-delimited words, Python `len(s.split())`. -/
def wordCount (s : String) : Nat :=
  countWordsAux s.data false 0

/-- UTF-8 encoding of one character (Python `str.encode()` is UTF-8). -/
def utf8Bytes (c : Char) : List Nat :=
  let v := c.toNat
  if v < 128 then [v]
  else if v < 2048 then [192 + v / 64, 128 + v % 64]
  else if v < 65536 then [224 + v / 4096, 128 + (v / 64) % 64, 128 + v % 64]
  else [240 + v / 262144, 128 + (v / 4096) % 64, 128 + (v / 64) % 64, 128 + v % 64]

/-- Raw byte representation of a string, Python `text.encode()`. -/
def rawBytes (s : String) : List Nat :=
  s.data.flatMap utf8Bytes

/-! ## Configuration constants (実証.py lines 31-37) -/

def ITERATIONS : Nat := 10
def CTX_LIMIT : Nat := 3500
def TEMPERATURE_INJECTIVE : Rat := 1
def TEMPERATURE_DETERMINISTIC : Rat := 0

/-- The fixed self-referential turn marker appended to the context. -/
def selfHeader : String := "\n### Self:\n"

/-- The fixed stop markers passed to the inference engine. -/
def stopMarkers : List String :=
  ["###", "\n###", "<|eot_id|>", "<|end_of_text|>"]

/-- Generation window: 8 tokens in deterministic mode, 32 in injective mode. -/
def maxTok (deterministic : Bool) : Nat :=
  if deterministic then 8 else 32

/-! ## Data model -/

/-- One log record `{"t": ..., "ctx_len": ..., "omega": ...}`. -/
structure LogRecord where
  t : Nat
  ctx_len : Int
  omega : Int
deriving Repr, DecidableEq

/-- The inference backend, a black box: call index, prompt, generation
window and stop markers determine the returned completion text.  The call
index accounts for the statefulness (sampling randomness) of the real
engine; a deterministic engine ignores it. -/
def Engine : Type := Nat → String → Nat → List String → String

/-! ## omega_compress (実証.py lines 42-45) -/

/-- `omega_compress`, parameterised by the external compressor's output
length `compressLen` (the length of `zlib.compress(raw)`):
`max(0, len(raw) - len(zlib.compress(raw)))`. -/
def omega_compress (compressLen : List Nat → Nat) (text : String) : Int :=
  max 0 (((rawBytes text).length : Int) - (compressLen (rawBytes text) : Int))

/-! ## run_loop (実証.py lines 48-119) -/

/-- Deterministic-mode trimming of the completion (実証.py line 94):
`completion = completion.lstrip()` happens only when `deterministic`. -/
def trimIf (deterministic : Bool) (s : String) : String :=
  if deterministic then pyLstrip s else s

/-- The terminal zero-token record (実証.py line 97):
`logs.append({"t": t, "ctx_len": effective_len, "omega": 0})`.
When `effective_len` has never been assigned (first iteration), Python
raises `NameError`; this is the `.error ()` case. -/
def terminalRecord (t : Nat) (prevEff : Option Int) : Except Unit (List LogRecord) :=
  match prevEff with
  | none => .error ()
  | some e => .ok [⟨t, e, 0⟩]

/-- Prepend a record to the result of the remaining iterations, propagating
a raised error. -/
def consOk (r : LogRecord) : Except Unit (List LogRecord) → Except Unit (List LogRecord)
  | .error e => .error e
  | .ok l => .ok (r :: l)

/-- The loop body of `run_loop` from iteration `t` on, with `fuel` loop
iterations remaining, current accumulated `context`, and `prevEff` the
current value of the Python variable `effective_len` (`none` while it is
still unassigned).  Returns the records produced from here on, or
`.error ()` if the latent `NameError` fires. -/
def run_from (deterministic : Bool) (engine : Engine) (compressLen : List Nat → Nat) :
    Nat → Nat → String → Option Int → Except Unit (List LogRecord)
  | 0, _, _, _ => .ok []
  | fuel + 1, t, context, prevEff =>
    let completion :=
      trimIf deterministic
        (engine t (context ++ selfHeader) (maxTok deterministic) stopMarkers)
    if deterministic && (pyStrip completion == "") then
      terminalRecord t prevEff
    else
      let context2 := context ++ completion
      let eff : Int := max 0 ((wordCount context2 : Int) - 3 * ((t : Int) + 1))
      let rcd : LogRecord := ⟨t, eff, omega_compress compressLen completion⟩
      if CTX_LIMIT < wordCount context2 then .ok [rcd]
      else consOk rcd (run_from deterministic engine compressLen fuel (t + 1) context2 (some eff))

/-- `run_loop(temp)`: `deterministic = temp == 0.0`, then the loop
`for t in range(ITERATIONS)` starting from the empty context with
`effective_len` unassigned. -/
def run_loop (temp : Rat) (engine : Engine) (compressLen : List Nat → Nat) :
    Except Unit (List LogRecord) :=
  run_from (decide (temp = 0)) engine compressLen ITERATIONS 0 "" none

/-- Mirrors the control flow of `run_from` but records only whether the run
reaches the iteration cap with no deterministic empty-completion
short-circuit and no safety cutoff.  Control flow does not depend on
`compressLen`, so this predicate does not either. -/
def noCutoff (deterministic : Bool) (engine : Engine) :
    Nat → Nat → String → Bool
  | 0, _, _ => true
  | fuel + 1, t, context =>
    let completion :=
      trimIf deterministic
        (engine t (context ++ selfHeader) (maxTok deterministic) stopMarkers)
    if deterministic && (pyStrip completion == "") then false
    else
      let context2 := context ++ completion
      if CTX_LIMIT < wordCount context2 then false
      else noCutoff deterministic engine fuel (t + 1) context2

/-! ## Helper lemmas -/

theorem omega_nonneg (compressLen : List Nat → Nat) (text : String) :
    0 ≤ omega_compress compressLen text :=
  le_max_left _ _

theorem omega_empty (compressLen : List Nat → Nat) :
    omega_compress compressLen "" = 0 := by
  have h : ((rawBytes "").length : Int) - (compressLen (rawBytes "") : Int) ≤ 0 := by
    have : rawBytes "" = [] := rfl
    rw [this]
    simp
  simpa [omega_compress] using max_eq_left h

theorem consOk_eq_map (r : LogRecord) (x : Except Unit (List LogRecord)) :
    consOk r x = x.map (fun l => r :: l) := by
  cases x <;> rfl

/-- One unfolding of `run_from` when the deterministic empty-completion
short-circuit does not fire. -/
theorem run_from_step (d : Bool) (engine : Engine) (compressLen : List Nat → Nat)
    (fuel t : Nat) (context : String) (prevEff : Option Int)
    (h : (d && (pyStrip (trimIf d (engine t (context ++ selfHeader) (maxTok d) stopMarkers)) == ""))
        = false) :
    run_from d engine compressLen (fuel + 1) t context prevEff =
      (let completion := trimIf d (engine t (context ++ selfHeader) (maxTok d) stopMarkers)
       let context2 := context ++ completion
       let eff : Int := max 0 ((wordCount context2 : Int) - 3 * ((t : Int) + 1))
       let rcd : LogRecord := ⟨t, eff, omega_compress compressLen completion⟩
       if CTX_LIMIT < wordCount context2 then .ok [rcd]
       else consOk rcd (run_from d engine compressLen fuel (t + 1) context2 (some eff))) := by
  simp only [run_from, h, Bool.false_eq_true, if_false]

/-- One unfolding of `run_from` when the deterministic empty-completion
short-circuit fires. -/
theorem run_from_term (d : Bool) (engine : Engine) (compressLen : List Nat → Nat)
    (fuel t : Nat) (context : String) (prevEff : Option Int)
    (h : (d && (pyStrip (trimIf d (engine t (context ++ selfHeader) (maxTok d) stopMarkers)) == ""))
        = true) :
    run_from d engine compressLen (fuel + 1) t context prevEff = terminalRecord t prevEff := by
  simp only [run_from, h, if_true]

/-- The number of records produced is bounded by the remaining fuel. -/
theorem run_from_length (d : Bool) (engine : Engine) (compressLen : List Nat → Nat) :
    ∀ (n t : Nat) (context : String) (prevEff : Option Int) (l : List LogRecord),
      run_from d engine compressLen n t context prevEff = .ok l → l.length ≤ n := by
  intro n
  induction n with
  | zero =>
    intro t context prevEff l h
    simp only [run_from] at h
    cases h
    simp
  | succ n ih =>
    intro t context prevEff l h
    rcases hc : (d && (pyStrip (trimIf d (engine t (context ++ selfHeader) (maxTok d) stopMarkers)) == "")) with _ | _
    · rw [run_from_step d engine compressLen n t context prevEff hc] at h
      simp only at h
      split at h
      · cases h
        simp
      · rw [consOk_eq_map] at h
        rcases hrec : run_from d engine compressLen n (t + 1)
            (context ++ trimIf d (engine t (context ++ selfHeader) (maxTok d) stopMarkers))
            (some (max 0 ((wordCount (context ++ trimIf d (engine t (context ++ selfHeader) (maxTok d) stopMarkers)) : Int) - 3 * ((t : Int) + 1)))) with e | l₂
        · rw [hrec] at h
          cases h
        · rw [hrec] at h
          cases h
          have := ih _ _ _ _ hrec
          simpa using Nat.succ_le_succ this
    · rw [run_from_term d engine compressLen n t context prevEff hc] at h
      cases prevEff with
      | none => cases h
      | some e =>
        cases h
        simp

/-- The `t` fields of the produced records are consecutive starting from the
iteration index the run was entered at. -/
theorem run_from_t_map (d : Bool) (engine : Engine) (compressLen : List Nat → Nat) :
    ∀ (n t : Nat) (context : String) (prevEff : Option Int) (l : List LogRecord),
      run_from d engine compressLen n t context prevEff = .ok l →
      l.map LogRecord.t = List.range' t l.length := by
  intro n
  induction n with
  | zero =>
    intro t context prevEff l h
    simp only [run_from] at h
    cases h
    simp
  | succ n ih =>
    intro t context prevEff l h
    rcases hc : (d && (pyStrip (trimIf d (engine t (context ++ selfHeader) (maxTok d) stopMarkers)) == "")) with _ | _
    · rw [run_from_step d engine compressLen n t context prevEff hc] at h
      simp only at h
      split at h
      · cases h
        simp [List.range']
      · rw [consOk_eq_map] at h
        rcases hrec : run_from d engine compressLen n (t + 1)
            (context ++ trimIf d (engine t (context ++ selfHeader) (maxTok d) stopMarkers))
            (some (max 0 ((wordCount (context ++ trimIf d (engine t (context ++ selfHeader) (maxTok d) stopMarkers)) : Int) - 3 * ((t : Int) + 1)))) with e | l₂
        · rw [hrec] at h
          cases h
        · rw [hrec] at h
          cases h
          have htl := ih _ _ _ _ hrec
          simp only [List.map_cons, htl, List.length_cons]
          rw [List.range'_succ]
    · rw [run_from_term d engine compressLen n t context prevEff hc] at h
      cases prevEff with
      | none => cases h
      | some e =>
        cases h
        simp [List.range']

/-- Every produced record has nonnegative `ctx_len` and `omega`, provided
the incoming saved effective length (if any) is nonnegative. -/
theorem run_from_nonneg (d : Bool) (engine : Engine) (compressLen : List Nat → Nat) :
    ∀ (n t : Nat) (context : String) (prevEff : Option Int) (l : List LogRecord),
      (∀ x : Int, prevEff = some x → 0 ≤ x) →
      run_from d engine compressLen n t context prevEff = .ok l →
      ∀ r ∈ l, 0 ≤ r.ctx_len ∧ 0 ≤ r.omega := by
  intro n
  induction n with
  | zero =>
    intro t context prevEff l _ h
    simp only [run_from] at h
    cases h
    simp
  | succ n ih =>
    intro t context prevEff l hp h
    rcases hc : (d && (pyStrip (trimIf d (engine t (context ++ selfHeader) (maxTok d) stopMarkers)) == "")) with _ | _
    · rw [run_from_step d engine compressLen n t context prevEff hc] at h
      simp only at h
      split at h
      · cases h
        intro r hr
        simp only [List.mem_singleton] at hr
        subst hr
        exact ⟨le_max_left _ _, omega_nonneg _ _⟩
      · rw [consOk_eq_map] at h
        rcases hrec : run_from d engine compressLen n (t + 1)
            (context ++ trimIf d (engine t (context ++ selfHeader) (maxTok d) stopMarkers))
            (some (max 0 ((wordCount (context ++ trimIf d (engine t (context ++ selfHeader) (maxTok d) stopMarkers)) : Int) - 3 * ((t : Int) + 1)))) with e | l₂
        · rw [hrec] at h
          cases h
        · rw [hrec] at h
          cases h
          intro r hr
          rcases List.mem_cons.mp hr with h1 | h2
          · subst h1
            exact ⟨le_max_left _ _, omega_nonneg _ _⟩
          · exact ih _ _ _ _ (fun x hx => by cases hx; exact le_max_left _ _) hrec r h2
    · rw [run_from_term d engine compressLen n t context prevEff hc] at h
      cases prevEff with
      | none => cases h
      | some e =>
        cases h
        intro r hr
        simp only [List.mem_singleton] at hr
        subst hr
        exact ⟨hp e rfl, le_refl 0⟩

/-- Runs driven by pointwise-equal engines coincide. -/
theorem run_from_congr (d : Bool) (engine₁ engine₂ : Engine) (compressLen : List Nat → Nat)
    (he : ∀ t p m s, engine₁ t p m s = engine₂ t p m s) :
    ∀ (n t : Nat) (context : String) (prevEff : Option Int),
      run_from d engine₁ compressLen n t context prevEff =
      run_from d engine₂ compressLen n t context prevEff := by
  intro n
  induction n with
  | zero => intro t context prevEff; rfl
  | succ n ih =>
    intro t context prevEff
    simp only [run_from, he, ih]

/-- If the control-flow predicate `noCutoff` holds, the run succeeds and
produces exactly one record per fuel unit. -/
theorem run_from_noCutoff (d : Bool) (engine : Engine) (compressLen : List Nat → Nat) :
    ∀ (n t : Nat) (context : String) (prevEff : Option Int),
      noCutoff d engine n t context = true →
      ∃ l : List LogRecord,
        run_from d engine compressLen n t context prevEff = .ok l ∧ l.length = n := by
  intro n
  induction n with
  | zero =>
    intro t context prevEff _
    exact ⟨[], rfl, rfl⟩
  | succ n ih =>
    intro t context prevEff hnc
    simp only [noCutoff] at hnc
    rcases hc : (d && (pyStrip (trimIf d (engine t (context ++ selfHeader) (maxTok d) stopMarkers)) == "")) with _ | _
    · rw [hc] at hnc
      simp only [Bool.false_eq_true, if_false] at hnc
      rcases hcut : decide (CTX_LIMIT < wordCount (context ++ trimIf d (engine t (context ++ selfHeader) (maxTok d) stopMarkers))) with _ | _
      · have hcut' : ¬ (CTX_LIMIT < wordCount (context ++ trimIf d (engine t (context ++ selfHeader) (maxTok d) stopMarkers))) :=
          of_decide_eq_false hcut
        rw [if_neg hcut'] at hnc
        rcases ih (t + 1)
            (context ++ trimIf d (engine t (context ++ selfHeader) (maxTok d) stopMarkers))
            (some (max 0 ((wordCount (context ++ trimIf d (engine t (context ++ selfHeader) (maxTok d) stopMarkers)) : Int) - 3 * ((t : Int) + 1)))) hnc with ⟨l₂, hrec, hlen⟩
        refine ⟨⟨t, max 0 ((wordCount (context ++ trimIf d (engine t (context ++ selfHeader) (maxTok d) stopMarkers)) : Int) - 3 * ((t : Int) + 1)),
          omega_compress compressLen (trimIf d (engine t (context ++ selfHeader) (maxTok d) stopMarkers))⟩ :: l₂, ?_, by simp [hlen]⟩
        rw [run_from_step d engine compressLen n t context prevEff hc]
        simp only [if_neg hcut', consOk_eq_map, hrec, Except.map]
      · have hcut' : CTX_LIMIT < wordCount (context ++ trimIf d (engine t (context ++ selfHeader) (maxTok d) stopMarkers)) :=
          of_decide_eq_true hcut
        rw [if_pos hcut'] at hnc
        cases hnc
    · rw [hc] at hnc
      simp at hnc

/-! ## Concrete engines and compressors used for scenarios and witnesses -/

/-- A string of `n` words: `"a a a ... a "`. -/
def wordsN (n : Nat) : String :=
  ⟨(List.replicate n ['a', ' ']).flatten⟩

/-- A toy compressed-length model for tests: every deflate-family stream
carries some constant overhead over the payload. -/
def testCompressLen : List Nat → Nat := fun l => l.length + 11

/-- Scenario A engine: substantive text on iterations 0 and 1, then only
whitespace on iteration 2. -/
def engineA : Engine := fun t _ _ _ =>
  if t < 2 then " alpha beta gamma delta epsilon zeta eta theta" else "   "

/-- Scenario B engine: 520 words per completion, so the accumulated word
count first exceeds 3500 after iteration `t = 6` (7 × 520 = 3640). -/
def engineB : Engine := fun _ _ _ _ => wordsN 520

/-- Engine producing a short fixed completion every time. -/
def engineHi : Engine := fun _ _ _ _ => "hi"

/-- Engine producing only whitespace. -/
def engineWS : Engine := fun _ _ _ _ => " \n "

/-- Engine producing the empty completion. -/
def engineEmpty : Engine := fun _ _ _ _ => ""

/-- Engine that blows past the safety limit in a single completion. -/
def engineBig : Engine := fun _ _ _ _ => wordsN 3501

/-- A deterministic engine depending only on prompt and parameters. -/
def baseEng : String → Nat → List String → String := fun _ _ _ => "ok"

/-- First wrapper of `baseEng` as a stateful-looking engine. -/
def engineDet1 : Engine := fun _ p m s => baseEng p m s

/-- Second, syntactically different wrapper of `baseEng`. -/
def engineDet2 : Engine := fun t p m s => if t = t then baseEng p m s else ""

/-- The records of a 10-iteration run of `engineHi`. -/
def lw : List LogRecord :=
  [⟨0, 0, 0⟩, ⟨1, 0, 0⟩, ⟨2, 0, 0⟩, ⟨3, 0, 0⟩, ⟨4, 0, 0⟩,
   ⟨5, 0, 0⟩, ⟨6, 0, 0⟩, ⟨7, 0, 0⟩, ⟨8, 0, 0⟩, ⟨9, 0, 0⟩]

theorem det_zero : decide ((0 : Rat) = 0) = true := by norm_num

theorem det_one : decide ((1 : Rat) = 0) = false := by norm_num

/-! ## Arithmetic of runs driven by constant-word engines

Scenario B needs a context of more than 3500 words; evaluating the word
count of such a string by kernel reduction is infeasible, so the run of a
constant-completion engine is computed through the following lemmas. -/

theorem mk_append (x y : List Char) : String.mk x ++ String.mk y = String.mk (x ++ y) := rfl

theorem empty_append (s : String) : "" ++ s = s := by
  cases s with
  | mk d => exact congrArg String.mk (List.nil_append d)

theorem wordsN_append (a b : Nat) : wordsN a ++ wordsN b = wordsN (a + b) := by
  unfold wordsN
  rw [mk_append, List.replicate_add, List.flatten_append]

theorem countWordsAux_wordsN (n : Nat) :
    ∀ k, countWordsAux ((List.replicate n ['a', ' ']).flatten) false k = k + n := by
  induction n with
  | zero =>
    intro k
    simp [countWordsAux]
  | succ n ih =>
    intro k
    have hstep : countWordsAux ((List.replicate (n + 1) ['a', ' ']).flatten) false k
        = countWordsAux ((List.replicate n ['a', ' ']).flatten) false (k + 1) := rfl
    rw [hstep, ih]
    omega

theorem wordCount_wordsN (n : Nat) : wordCount (wordsN n) = n := by
  show countWordsAux ((List.replicate n ['a', ' ']).flatten) false 0 = n
  rw [countWordsAux_wordsN n 0]
  omega

theorem rawBytes_wordsN_length (n : Nat) : (rawBytes (wordsN n)).length = 2 * n := by
  induction n with
  | zero => rfl
  | succ n ih =>
    have hstep : rawBytes (wordsN (n + 1)) = 97 :: 32 :: rawBytes (wordsN n) := rfl
    rw [hstep]
    simp only [List.length_cons, ih]
    omega

theorem omega_testCompressLen (text : String) :
    omega_compress testCompressLen text = 0 := by
  unfold omega_compress testCompressLen
  have h : (((rawBytes text).length : Int) - (((rawBytes text).length + 11 : Nat) : Int)) ≤ 0 := by
    push_cast
    omega
  exact max_eq_left h

/-- Closed form of an injective-mode run whose completions all contain `w`
words and compress to `omega = 0`: each iteration adds `w` words to the
running total `base`. -/
def constRun (w : Nat) : Nat → Nat → Nat → List LogRecord
  | 0, _, _ => []
  | fuel + 1, t, base =>
    let rcd : LogRecord := ⟨t, max 0 (((base + w : Nat) : Int) - 3 * ((t : Int) + 1)), 0⟩
    if CTX_LIMIT < base + w then [rcd]
    else rcd :: constRun w fuel (t + 1) (base + w)

theorem run_from_constWords (engine : Engine) (w : Nat)
    (heng : ∀ t p m s, engine t p m s = wordsN w) :
    ∀ (fuel t base : Nat) (prevEff : Option Int),
      run_from false engine testCompressLen fuel t (wordsN base) prevEff =
        .ok (constRun w fuel t base) := by
  intro fuel
  induction fuel with
  | zero => intro t base prevEff; rfl
  | succ n ih =>
    intro t base prevEff
    have hc : (false && (pyStrip (trimIf false (engine t (wordsN base ++ selfHeader) (maxTok false) stopMarkers)) == "")) = false := rfl
    rw [run_from_step false engine testCompressLen n t (wordsN base) prevEff hc]
    have hcompl : trimIf false (engine t (wordsN base ++ selfHeader) (maxTok false) stopMarkers) = wordsN w := heng t _ _ _
    simp only [hcompl, wordsN_append, wordCount_wordsN, omega_testCompressLen, constRun]
    by_cases hcut : CTX_LIMIT < base + w
    · simp only [if_pos hcut]
    · simp only [if_neg hcut, ih (t + 1) (base + w), consOk]

/-! ## Claims -/

/-- C7: `omega_compress` returns `max(0, raw_byte_length − compressed_byte_length)`
of the text's byte encoding, is a nonnegative integer, is a pure function
(hence deterministic), and maps the empty string to 0. -/
theorem claim_C7 (compressLen : List Nat → Nat) (text : String) :
    omega_compress compressLen text =
      max 0 (((rawBytes text).length : Int) - (compressLen (rawBytes text) : Int)) ∧
    0 ≤ omega_compress compressLen text ∧
    omega_compress compressLen "" = 0 :=
  ⟨rfl, omega_nonneg compressLen text, omega_empty compressLen⟩

/-- C9: two executions of the deterministic-mode loop driven by the same
fixed deterministic engine (a function of the prompt and parameters only)
produce identical record sequences. -/
theorem claim_C9 (eng : String → Nat → List String → String) (engine₁ engine₂ : Engine)
    (compressLen : List Nat → Nat)
    (h1 : ∀ t p m s, engine₁ t p m s = eng p m s)
    (h2 : ∀ t p m s, engine₂ t p m s = eng p m s) :
    run_loop 0 engine₁ compressLen = run_loop 0 engine₂ compressLen := by
  unfold run_loop
  exact run_from_congr _ engine₁ engine₂ compressLen
    (fun t p m s => (h1 t p m s).trans (h2 t p m s).symm) ITERATIONS 0 "" none

theorem claim_C9_witness :
    run_loop 0 engineDet1 testCompressLen = run_loop 0 engineDet2 testCompressLen :=
  claim_C9 baseEng engineDet1 engineDet2 testCompressLen (fun _ _ _ _ => rfl)
    (fun t p m s => by simp [engineDet2, engineDet1, baseEng])

/-- C2: in the very first iteration (`t = 0`) of deterministic mode, a
whitespace-only completion makes the terminal record reference the still
unassigned `effective_len`, so the run aborts with an undefined-variable
error instead of appending a record. -/
theorem claim_C2 (engine : Engine) (compressLen : List Nat → Nat)
    (h : pyStrip (pyLstrip (engine 0 ("" ++ selfHeader) 8 stopMarkers)) = "") :
    run_loop 0 engine compressLen = .error () := by
  unfold run_loop
  rw [det_zero]
  have h' : pyStrip (pyLstrip (engine 0 selfHeader 8 stopMarkers)) = "" := by
    simpa using h
  have hc : (true && (pyStrip (trimIf true (engine 0 ("" ++ selfHeader) (maxTok true) stopMarkers)) == "")) = true := by
    simp [trimIf, maxTok, h']
  rw [show ITERATIONS = 9 + 1 from rfl]
  rw [run_from_term true engine compressLen 9 0 "" none hc]
  rfl

theorem claim_C2_witness :
    pyStrip (pyLstrip (engineWS 0 ("" ++ selfHeader) 8 stopMarkers)) = "" ∧
    run_loop 0 engineWS testCompressLen = .error () :=
  ⟨rfl, claim_C2 engineWS testCompressLen rfl⟩

/-- C1: in deterministic mode, an iteration `t` reached with a previously
computed effective length `e` whose completion strips to whitespace-only
appends exactly one terminal record `⟨t, e, 0⟩` and terminates the loop;
Scenario A: whitespace on iteration `t = 2` of the 10-iteration
deterministic run yields exactly 3 records, the third being
`⟨2, ctx_len of record 1, 0⟩`. -/
theorem claim_C1 (engine : Engine) (compressLen : List Nat → Nat)
    (fuel t : Nat) (context : String) (e : Int)
    (h : pyStrip (pyLstrip (engine t (context ++ selfHeader) 8 stopMarkers)) = "") :
    run_from true engine compressLen (fuel + 1) t context (some e) = .ok [⟨t, e, 0⟩] ∧
    (∃ r0 r1 r2 : LogRecord,
      run_loop 0 engineA testCompressLen = .ok [r0, r1, r2] ∧ r2 = ⟨2, r1.ctx_len, 0⟩) := by
  constructor
  · have hc : (true && (pyStrip (trimIf true (engine t (context ++ selfHeader) (maxTok true) stopMarkers)) == "")) = true := by
      simp [trimIf, maxTok, h]
    rw [run_from_term true engine compressLen fuel t context (some e) hc]
    rfl
  · refine ⟨⟨0, 5, 0⟩, ⟨1, 9, 0⟩, ⟨2, 9, 0⟩, ?_, rfl⟩
    unfold run_loop
    rw [det_zero]
    rfl

theorem claim_C1_witness :
    pyStrip (pyLstrip (engineWS 5 ("seed" ++ selfHeader) 8 stopMarkers)) = "" ∧
    run_from true engineWS testCompressLen (0 + 1) 5 "seed" (some 7) = .ok [⟨5, 7, 0⟩] :=
  ⟨rfl, (claim_C1 engineWS testCompressLen 0 5 "seed" 7 rfl).1⟩

/-- C3: whenever the word count of the accumulated context exceeds the
safety limit 3500 after an iteration's record has been appended, the loop
terminates immediately after that record; Scenario B: the injective run of
`engineB` first exceeds the limit after iteration `t = 6` and produces
exactly 7 records. -/
theorem claim_C3 (d : Bool) (engine : Engine) (compressLen : List Nat → Nat)
    (fuel t : Nat) (context : String) (prevEff : Option Int)
    (h1 : (d && (pyStrip (trimIf d (engine t (context ++ selfHeader) (maxTok d) stopMarkers)) == "")) = false)
    (h2 : CTX_LIMIT < wordCount (context ++ trimIf d (engine t (context ++ selfHeader) (maxTok d) stopMarkers))) :
    run_from d engine compressLen (fuel + 1) t context prevEff =
      .ok [⟨t, max 0 ((wordCount (context ++ trimIf d (engine t (context ++ selfHeader) (maxTok d) stopMarkers)) : Int) - 3 * ((t : Int) + 1)),
            omega_compress compressLen (trimIf d (engine t (context ++ selfHeader) (maxTok d) stopMarkers))⟩] ∧
    (∃ l : List LogRecord, run_loop 1 engineB testCompressLen = .ok l ∧
      l.length = 7 ∧ l.map LogRecord.t = [0, 1, 2, 3, 4, 5, 6]) := by
  constructor
  · rw [run_from_step d engine compressLen fuel t context prevEff h1]
    simp only [if_pos h2]
  · refine ⟨[⟨0, 517, 0⟩, ⟨1, 1034, 0⟩, ⟨2, 1551, 0⟩, ⟨3, 2068, 0⟩,
      ⟨4, 2585, 0⟩, ⟨5, 3102, 0⟩, ⟨6, 3619, 0⟩], ?_, rfl, rfl⟩
    unfold run_loop
    rw [det_one]
    show run_from false engineB testCompressLen 10 0 (wordsN 0) none =
      .ok [⟨0, 517, 0⟩, ⟨1, 1034, 0⟩, ⟨2, 1551, 0⟩, ⟨3, 2068, 0⟩,
        ⟨4, 2585, 0⟩, ⟨5, 3102, 0⟩, ⟨6, 3619, 0⟩]
    rw [run_from_constWords engineB 520 (fun _ _ _ _ => rfl) 10 0 0 none]
    rfl

theorem claim_C3_witness :
    (false && (pyStrip (trimIf false (engineBig 0 ("" ++ selfHeader) (maxTok false) stopMarkers)) == "")) = false ∧
    CTX_LIMIT < wordCount ("" ++ trimIf false (engineBig 0 ("" ++ selfHeader) (maxTok false) stopMarkers)) ∧
    run_from false engineBig testCompressLen (0 + 1) 0 "" none =
      .ok [⟨0, max 0 ((wordCount ("" ++ trimIf false (engineBig 0 ("" ++ selfHeader) (maxTok false) stopMarkers)) : Int) - 3 * ((0 : Int) + 1)),
            omega_compress testCompressLen (trimIf false (engineBig 0 ("" ++ selfHeader) (maxTok false) stopMarkers))⟩] :=
  ⟨rfl,
    by
      simp only [empty_append]
      rw [show trimIf false (engineBig 0 selfHeader (maxTok false) stopMarkers) = wordsN 3501 from rfl,
        wordCount_wordsN]
      decide,
    (claim_C3 false engineBig testCompressLen 0 0 "" none rfl
      (by
        simp only [empty_append]
        rw [show trimIf false (engineBig 0 selfHeader (maxTok false) stopMarkers) = wordsN 3501 from rfl,
          wordCount_wordsN]
        decide)).1⟩

/-- C4: the number of records produced by a run never exceeds the iteration
cap `ITERATIONS = 10`; and a run with no deterministic empty-completion
short-circuit and no safety cutoff reaches the cap, producing exactly 10
records with `t` ranging over `0..9`. -/
theorem claim_C4 :
    (∀ (temp : Rat) (engine : Engine) (compressLen : List Nat → Nat) (l : List LogRecord),
      run_loop temp engine compressLen = .ok l → l.length ≤ ITERATIONS) ∧
    (∀ (temp : Rat) (engine : Engine) (compressLen : List Nat → Nat),
      noCutoff (decide (temp = 0)) engine ITERATIONS 0 "" = true →
      ∃ l : List LogRecord, run_loop temp engine compressLen = .ok l ∧
        l.length = 10 ∧ l.map LogRecord.t = List.range 10) := by
  constructor
  · intro temp engine compressLen l h
    exact run_from_length _ engine compressLen ITERATIONS 0 "" none l h
  · intro temp engine compressLen hnc
    rcases run_from_noCutoff (decide (temp = 0)) engine compressLen ITERATIONS 0 "" none hnc with ⟨l, hrun, hlen⟩
    refine ⟨l, hrun, hlen, ?_⟩
    have hmap := run_from_t_map (decide (temp = 0)) engine compressLen ITERATIONS 0 "" none l hrun
    rw [hmap, hlen]
    rw [show ITERATIONS = 10 from rfl, List.range_eq_range']

theorem claim_C4_witness :
    noCutoff (decide ((1 : Rat) = 0)) engineHi ITERATIONS 0 "" = true ∧
    (∃ l : List LogRecord, run_loop 1 engineHi testCompressLen = .ok l ∧
      l.length = 10 ∧ l.map LogRecord.t = List.range 10) := by
  constructor
  · rw [det_one]
    rfl
  · exact claim_C4.2 1 engineHi testCompressLen (by rw [det_one]; rfl)

/-- C5: every record of a successful run has `ctx_len ≥ 0` and `omega ≥ 0`,
and the `t` values are exactly `0, 1, 2, ...` in order: the `i`-th record
has `t = i`. -/
theorem claim_C5 (temp : Rat) (engine : Engine) (compressLen : List Nat → Nat)
    (l : List LogRecord) (h : run_loop temp engine compressLen = .ok l) :
    (∀ r ∈ l, 0 ≤ r.ctx_len ∧ 0 ≤ r.omega) ∧
    (∀ i (hi : i < l.length), l[i].t = i) := by
  constructor
  · exact run_from_nonneg _ engine compressLen ITERATIONS 0 "" none l
      (fun x hx => by cases hx) h
  · intro i hi
    have hmap := run_from_t_map _ engine compressLen ITERATIONS 0 "" none l h
    rw [← List.range_eq_range'] at hmap
    have hi1 : i < (l.map LogRecord.t).length := by simpa using hi
    have h1 : (l.map LogRecord.t)[i] = l[i].t := List.getElem_map LogRecord.t
    have h2 : (l.map LogRecord.t)[i] = i := by
      simp only [hmap]
      exact List.getElem_range i (by simpa using hi)
    rw [← h1, h2]

theorem claim_C5_witness :
    run_loop 1 engineHi testCompressLen = .ok lw ∧ (lw.get ⟨3, by decide⟩).t = 3 := by
  have hrun : run_loop 1 engineHi testCompressLen = .ok lw := by
    unfold run_loop
    rw [det_one]
    rfl
  exact ⟨hrun, (claim_C5 1 engineHi testCompressLen lw hrun).2 3 (by decide)⟩

/-- C6: a non-short-circuited iteration `t` appends the completion to the
context and logs a record whose `ctx_len` is
`max(0, wordCount(context') − 3 × (t + 1))` on the extended context, with
`omega` computed on the completion; the loop continues (carrying that
effective length) unless the safety cutoff fires. -/
theorem claim_C6 (d : Bool) (engine : Engine) (compressLen : List Nat → Nat)
    (fuel t : Nat) (context : String) (prevEff : Option Int)
    (h : (d && (pyStrip (trimIf d (engine t (context ++ selfHeader) (maxTok d) stopMarkers)) == "")) = false) :
    run_from d engine compressLen (fuel + 1) t context prevEff =
      (let completion := trimIf d (engine t (context ++ selfHeader) (maxTok d) stopMarkers)
       let context2 := context ++ completion
       let rcd : LogRecord := ⟨t, max 0 ((wordCount context2 : Int) - 3 * ((t : Int) + 1)),
         omega_compress compressLen completion⟩
       if CTX_LIMIT < wordCount context2 then .ok [rcd]
       else consOk rcd (run_from d engine compressLen fuel (t + 1) context2 (some rcd.ctx_len))) :=
  run_from_step d engine compressLen fuel t context prevEff h

theorem claim_C6_witness :
    (false && (pyStrip (trimIf false (engineHi 0 ("" ++ selfHeader) (maxTok false) stopMarkers)) == "")) = false ∧
    run_from false engineHi testCompressLen (0 + 1) 0 "" none = .ok [⟨0, 0, 0⟩] := by
  refine ⟨rfl, ?_⟩
  rw [claim_C6 false engineHi testCompressLen 0 0 "" none rfl]
  rfl

/-- C10: with temperature strictly positive the loop is injective-mode: the
completion is never trimmed and never short-circuits; it is appended
unchanged (the generation window being 32 tokens) and yields a normal
record, and the loop proceeds unless the safety cutoff or the cap applies;
`omega` on the empty completion is 0. -/
theorem claim_C10 (temp : Rat) (engine : Engine) (compressLen : List Nat → Nat)
    (fuel t : Nat) (context : String) (prevEff : Option Int) (h : 0 < temp) :
    decide (temp = 0) = false ∧
    run_from (decide (temp = 0)) engine compressLen (fuel + 1) t context prevEff =
      (let completion := engine t (context ++ selfHeader) 32 stopMarkers
       let context2 := context ++ completion
       let rcd : LogRecord := ⟨t, max 0 ((wordCount context2 : Int) - 3 * ((t : Int) + 1)),
         omega_compress compressLen completion⟩
       if CTX_LIMIT < wordCount context2 then .ok [rcd]
       else consOk rcd (run_from (decide (temp = 0)) engine compressLen fuel (t + 1) context2 (some rcd.ctx_len))) ∧
    omega_compress compressLen "" = 0 := by
  have hd : decide (temp = 0) = false := decide_eq_false h.ne'
  refine ⟨hd, ?_, omega_empty compressLen⟩
  rw [hd]
  have hc : (false && (pyStrip (trimIf false (engine t (context ++ selfHeader) (maxTok false) stopMarkers)) == "")) = false := rfl
  rw [run_from_step false engine compressLen fuel t context prevEff hc]
  rfl

theorem claim_C10_witness :
    (0 : Rat) < 1 ∧
    run_from (decide ((1 : Rat) = 0)) engineEmpty testCompressLen (0 + 1) 0 "" none =
      .ok [⟨0, 0, 0⟩] := by
  refine ⟨by norm_num, ?_⟩
  rw [(claim_C10 1 engineEmpty testCompressLen 0 0 "" none (by norm_num)).2.1]
  rw [det_one]
  rfl

end N2MRSI
